import Mathlib

/-!
Verification of the ReelMyDay reel-rendering pipeline.

Shallow embedding of:
- src/lib/render-worker.ts : background worker (claim loop, geometry and
  timing computation, duration fit, assembly, artifact pruning);
- src/pages/api/render.ts : the api route variants (prober with a catch,
  and the enqueue handler with the quota guard);
- src/unnamed/part_002 : the api route variant carrying the music
  validation.

Conventions: JS numbers are rationals, JS integer values are Int or Nat;
a fallible subprocess call is represented by an explicit outcome value per
the external tool boundary, and an uncaught promise rejection is
Except.error.
-/

namespace RenderWorker

/-- Canvas width, render-worker.ts line 32. -/
def WIDTH : ℚ := 1080

/-- Canvas height, render-worker.ts line 33. -/
def HEIGHT : ℚ := 1920

/-- Fixed frame rate, render-worker.ts line 34. -/
def FPS : ℚ := 30

/-- JS Math.round: floor of x plus one half (ties go toward positive
infinity), which is the rounding used on the nonnegative values here. -/
def jround (x : ℚ) : ℤ := ⌊x + 1/2⌋

/-- Function even of render-worker.ts line 42:
Math.max(2, Math.floor(n / 2) * 2). Int.fdiv is floor division, matching
Math.floor of the quotient. -/
def even (n : ℤ) : ℤ := max 2 (2 * n.fdiv 2)

/-- Function fitDims of render-worker.ts lines 137-149: contain-fit of a
srcW x srcH source into the fixed 1080 x 1920 canvas; the wider branch pins
the width, the taller branch pins the height, the derived dimension is
rounded then forced even. -/
def fitDims (srcW srcH : ℚ) : ℤ × ℤ :=
  let arSrc := srcW / srcH
  let arOut := WIDTH / HEIGHT
  if arOut ≤ arSrc then
    (1080, even (jround (WIDTH / arSrc)))
  else
    (even (jround (HEIGHT * arSrc)), 1920)

/-- Frame count of a segment, buildContainWithBlurVF line 159:
Math.max(2, Math.round(secondsDur * FPS)). -/
def frames (secondsDur : ℚ) : ℤ := max 2 (jround (secondsDur * FPS))

/-- Last frame index, buildContainWithBlurVF line 160. -/
def maxIdx (secondsDur : ℚ) : ℤ := frames secondsDur - 1

/-- Zoom-in factor at frame n, the filter expression
1.00 + 0.20*(n/maxIdx) of buildContainWithBlurVF line 163. -/
def zin (secondsDur : ℚ) (n : ℤ) : ℚ :=
  1.00 + 0.20 * ((n : ℚ) / ((maxIdx secondsDur : ℤ) : ℚ))

/-- Zoom-out factor at frame n, the filter expression
1.20 - 0.20*(n/maxIdx) of buildContainWithBlurVF line 164. -/
def zout (secondsDur : ℚ) (n : ℤ) : ℚ :=
  1.20 - 0.20 * ((n : ℚ) / ((maxIdx secondsDur : ℤ) : ℚ))

/-- Per-image duration fit of tick, render-worker.ts lines 367-376: a
single formula computed once for all stills. budget is the estimated video
time, numVids * (maxPerVideoSec when positive, else 3); rem is the music
length minus that, floored at 1; the per-image duration is rem over the
number of stills clamped into the band from 1.2 to 4.0. -/
def perImage (musicSeconds maxPerVideoSec durationSec : ℚ)
    (numVids numStills : ℕ) : ℚ :=
  let budget : ℚ := (numVids : ℚ) * (if 0 < maxPerVideoSec then maxPerVideoSec else 3)
  let rem : ℚ := max 1 (musicSeconds - budget)
  if 0 < numStills then max 1.2 (min 4.0 (rem / (numStills : ℚ))) else durationSec

/-- Segment names produced by the per-item loop of tick, lines 378-413:
the loop runs over every item unconditionally and pushes one segment per
item, in input order. -/
def tickSegs (numItems : ℕ) : List String :=
  (List.range numItems).map (fun i => "seg-" ++ toString i ++ ".mp4")

/-- Total picture duration for a job of numStills images (each running the
fitted per-image duration, makeImageSegment is invoked with -t perImg) and
the given video segment durations. -/
def totalItemDuration (numStills : ℕ) (perImg : ℚ) (vidDurs : List ℚ) : ℚ :=
  (numStills : ℚ) * perImg + vidDurs.sum

/-- Video stream fields that ffprobe output can carry, as read by
ffprobeInfo: width, height, the rotate tag, and the duration string. -/
structure VStream where
  width : Option ℤ
  height : Option ℤ
  rotate : Option ℤ
  duration : Option ℚ
deriving DecidableEq

/-- Outcome of one ffprobe subprocess run: a non-zero exit whose promise
rejection carries the captured diagnostic, stdout that fails JSON.parse, or
parsed output holding no stream or a first stream. -/
inductive ProbeRun where
  | exitNonZero (err : String)
  | badJson
  | streams (s : Option VStream)
deriving DecidableEq

/-- Result record of ffprobeInfo: { w, h, rot, dur }. -/
structure FFInfo where
  w : ℤ
  h : ℤ
  rot : ℤ
  dur : Option ℚ
deriving DecidableEq

/-- JS idiom Number(x) || d: a missing or zero field falls back to d. -/
def numOr (x : Option ℤ) (d : ℤ) : ℤ :=
  match x with
  | some v => if v = 0 then d else v
  | none => d

/-- Function ffprobeInfo of render-worker.ts lines 58-80. The then-branch
catches only the JSON parsing, returning canvas defaults with the dur field
absent; a rejection of the run promise itself is not caught and
propagates. -/
def ffprobeInfo : ProbeRun → Except String FFInfo
  | .exitNonZero e => .error e
  | .badJson => .ok ⟨1080, 1920, 0, none⟩
  | .streams none => .ok ⟨1080, 1920, 0, none⟩
  | .streams (some s) =>
      .ok ⟨numOr s.width 1080, numOr s.height 1920, numOr s.rotate 0, s.duration⟩

/-- Job status enum of the RenderJob queue. -/
inductive JobStatus where
  | queued
  | running
  | done
  | failed
deriving DecidableEq

/-- One RenderJob row, reduced to the fields the claim transition reads. -/
structure Job where
  id : ℕ
  status : JobStatus
deriving DecidableEq

/-- Row predicate of the conditional update of tick lines 317-320:
where id equals jid and status is QUEUED. -/
def pQ (jid : ℕ) (j : Job) : Bool := j.id == jid && j.status == JobStatus.queued

/-- The atomic conditional update prisma.renderJob.updateMany of tick lines
317-320: set status RUNNING on every row matching pQ, returning the
affected-row count together with the new table. -/
def claimQueued (db : List Job) (jid : ℕ) : ℕ × List Job :=
  ((db.filter (pQ jid)).length,
   db.map (fun j => if pQ jid j then ⟨j.id, JobStatus.running⟩ else j))

/-- Claim phase of one worker tick, lines 309-321: run the conditional
update; when the count is zero the tick returns at once, so the flag
records whether this worker proceeds to render. -/
def tickClaim (db : List Job) (jid : ℕ) : List Job × Bool :=
  let r := claimQueued db jid
  (r.2, r.1 != 0)

/-- A serialization of n concurrent claim attempts on the same job: the
persistence layer serializes the atomic conditional updates, so concurrent
workers appear as a sequence of tickClaim steps. Returns the final table
and the number of successful claims. -/
def claimAttempts (db : List Job) (jid : ℕ) : ℕ → List Job × ℕ
  | 0 => (db, 0)
  | n + 1 =>
    let r := tickClaim db jid
    let rest := claimAttempts r.1 jid n
    (rest.1, (if r.2 then 1 else 0) + rest.2)

/-- Mixed-output name of replaceAudioWithMusic, line 277: the regex
replace of a trailing .mp4 (case-insensitive) with -music.mp4. -/
def mixedName (p : String) : String :=
  if p.toLower.endsWith ".mp4" then p.dropRight 4 ++ "-music.mp4" else p

/-- Stream content of the file supplied as background music, as reported
by the media introspector. -/
structure MusicStreams where
  hasVideo : Bool
  hasAudio : Bool
deriving DecidableEq

/-- Modelled from the external tool boundary: the ffmpeg invocation of
replaceAudioWithMusic maps stream 0:a:0 of the music input, which exists
exactly when the file carries an audio stream; a failing invocation is a
runFF rejection with the exit diagnostic. -/
def ffmpegMixMusic (s : MusicStreams) : Except String Unit :=
  if s.hasAudio then .ok () else .error "ffmpeg exited with 1"

/-- Function replaceAudioWithMusic of render-worker.ts lines 276-291: it
performs no stream validation of the music file at all, it only runs the
mix invocation and returns the mixed path. The music file is represented
by its probed stream content. -/
def replaceAudioWithMusic (videoPath : String) (s : MusicStreams) :
    Except String String :=
  (ffmpegMixMusic s).map (fun _ => mixedName videoPath)

/-- Filesystem events relevant to publication: an external tool creating
and incrementally writing a file, a direct write, a rename, an unlink. -/
inductive FsEvent where
  | toolWrite (p : String)
  | fsWrite (p : String)
  | rename (src dst : String)
  | unlink (p : String)
deriving DecidableEq

/-- Assembly-phase filesystem events of tick, render-worker.ts lines
415-426, in program order: the concat list is written into the per-job tmp
dir, then ffmpeg concat writes the output directly at
rendersDir/outName; with music, ffmpeg then writes the mixed file directly
at its final name and the concat output is unlinked. -/
def assembleEvents (rendersDir tmpDir outName : String) (hasMusic : Bool) :
    List FsEvent :=
  [FsEvent.fsWrite (tmpDir ++ "/concat.txt"),
   FsEvent.toolWrite (rendersDir ++ "/" ++ outName)] ++
  (if hasMusic then
    [FsEvent.toolWrite (rendersDir ++ "/" ++ mixedName outName),
     FsEvent.unlink (rendersDir ++ "/" ++ outName)]
   else [])

/-- Public path of the published artifact, lines 422-436: rendersDir
joined with the basename of finalPath, which the /renders URL serves. -/
def publishedPath (rendersDir outName : String) (hasMusic : Bool) : String :=
  rendersDir ++ "/" ++ (if hasMusic then mixedName outName else outName)

/-- Whether event e writes file content at path p other than by rename. -/
def writesAt (e : FsEvent) (p : String) : Bool :=
  match e with
  | .toolWrite q => q == p
  | .fsWrite q => q == p
  | _ => false

/-- Whether event e is a rename whose destination is p. -/
def renameTo (e : FsEvent) (p : String) : Bool :=
  match e with
  | .rename _ dst => dst == p
  | _ => false

/-- Formalization of atomic publication for a trace: the public path is
never written directly, and it appears as the destination of a rename. -/
def atomicPublication (tr : List FsEvent) (pub : String) : Prop :=
  (∀ e ∈ tr, writesAt e pub = false) ∧ (∃ e ∈ tr, renameTo e pub = true)

/-- Retention cap KEEP of pruneOldRendersForUser, line 478. -/
def KEEP : ℕ := 20

/-- One Render row of the artifact metadata table, reduced to the fields
pruning reads. -/
structure RenderRow where
  id : ℕ
  fileName : String
  createdAt : ℕ
deriving DecidableEq

/-- Function pruneOldRendersForUser of render-worker.ts lines 477-492,
acting on the rows of one owner in the order the query returns them
(orderBy createdAt desc) together with the artifact file store. Rows past
the first KEEP are selected; each file unlink is wrapped in try/catch with
the exception swallowed (line 489), so unlinkFails says which fs.unlinkSync
calls throw and those files stay on disk; deleteMany then removes every
selected metadata row unconditionally. -/
def pruneOldRendersForUser (rowsDesc : List RenderRow) (files : List String)
    (unlinkFails : String → Bool) : List RenderRow × List String :=
  let toDelete := rowsDesc.drop KEEP
  (rowsDesc.filter (fun r => !(toDelete.any (fun d => d.id == r.id))),
   files.filter (fun f => !(toDelete.any (fun d => d.fileName == f)) || unlinkFails f))

/-- Specification bundle for one pruning pass of the best-effort code:
exactly the rows past the cap are selected, each strictly older than every
kept row; their metadata rows are always deleted; a selected file is
removed when its unlink succeeds but survives orphaned when the unlink
fails (the swallowed exception); kept artifacts stay; and a second pass is
the identity. -/
def pruneSpec (rowsDesc : List RenderRow) (files : List String)
    (unlinkFails : String → Bool) : Prop :=
  (rowsDesc.drop KEEP).length = rowsDesc.length - KEEP ∧
  (pruneOldRendersForUser rowsDesc files unlinkFails).1 = rowsDesc.take KEEP ∧
  (∀ k ∈ rowsDesc.take KEEP, ∀ d ∈ rowsDesc.drop KEEP, d.createdAt < k.createdAt) ∧
  (∀ d ∈ rowsDesc.drop KEEP,
    (∀ r ∈ (pruneOldRendersForUser rowsDesc files unlinkFails).1, r.id ≠ d.id) ∧
    (unlinkFails d.fileName = false →
      d.fileName ∉ (pruneOldRendersForUser rowsDesc files unlinkFails).2) ∧
    (unlinkFails d.fileName = true → d.fileName ∈ files →
      d.fileName ∈ (pruneOldRendersForUser rowsDesc files unlinkFails).2)) ∧
  (∀ k ∈ rowsDesc.take KEEP, k.fileName ∈ files →
    k.fileName ∈ (pruneOldRendersForUser rowsDesc files unlinkFails).2) ∧
  pruneOldRendersForUser (pruneOldRendersForUser rowsDesc files unlinkFails).1
      (pruneOldRendersForUser rowsDesc files unlinkFails).2 unlinkFails =
    pruneOldRendersForUser rowsDesc files unlinkFails

/-- Optional background music option as stored in job options. -/
structure MusicOpt where
  name : Option String
  dataUrl : Option String
deriving DecidableEq

/-- Audio carried by each video segment: the original track or the
synthesized silent bed. -/
inductive SegAudioKind where
  | originalAudio
  | silentBed
deriving DecidableEq

/-- Audio track of the final artifact: the looped music trimmed to the
picture, or the concatenated segment audio. -/
inductive FinalAudioKind where
  | loopedTrimmedMusic
  | concatAudio
deriving DecidableEq

/-- Audio decisions of one tick. -/
structure AudioPlan where
  keepVideoAudio : Bool
  videoSegAudio : SegAudioKind
  finalAudio : FinalAudioKind
deriving DecidableEq

/-- Audio plan computed by tick: line 337 forces keepVideoAudio off
whenever a music option is present; makeVideoSegment (line 408) then gives
every video segment the silent bed; lines 350-359 set musicPath when the
music dataUrl decodes to nonempty bytes (musicDecoded), and lines 422-426
then replace the final audio with the looped music. -/
def tickAudioPlan (keepVideoAudioOpt : Bool) (music : Option MusicOpt)
    (musicDecoded : Bool) : AudioPlan :=
  let keepVideoAudio := keepVideoAudioOpt && music.isNone
  let musicPathSet := music.elim false (fun m => m.dataUrl.isSome && musicDecoded)
  ⟨keepVideoAudio,
   if keepVideoAudio then .originalAudio else .silentBed,
   if musicPathSet then .loopedTrimmedMusic else .concatAudio⟩

end RenderWorker

namespace RenderApi

/-- Probe dimension record of pages/api/render.ts lines 88-109. -/
structure ProbeDims where
  width : ℤ
  height : ℤ
  rotation : ℤ
deriving DecidableEq

/-- Function probe of pages/api/render.ts lines 88-109: the same parsing
as the worker prober, but with a final catch that turns a failing
subprocess into the canvas defaults, so it is total; it never reports a
duration. -/
def probe : RenderWorker.ProbeRun → ProbeDims
  | .exitNonZero _ => ⟨1080, 1920, 0⟩
  | .badJson => ⟨1080, 1920, 0⟩
  | .streams none => ⟨1080, 1920, 0⟩
  | .streams (some s) =>
      ⟨RenderWorker.numOr s.width 1080, RenderWorker.numOr s.height 1920,
       RenderWorker.numOr s.rotate 0⟩

end RenderApi

namespace ApiMusic

/-- Function validateMusicIsAudio of src/unnamed/part_002 lines 334-340:
the music file must probe with an audio stream and without any video
stream, otherwise the error music_must_be_audio is thrown. -/
def validateMusicIsAudio (s : RenderWorker.MusicStreams) : Except String Unit :=
  if !s.hasAudio || s.hasVideo then .error "music_must_be_audio" else .ok ()

/-- Function replaceAudioWithMusic of src/unnamed/part_002 lines 342-358:
unlike the worker variant it validates first, then runs the mix. -/
def replaceAudioWithMusicChecked (videoPath : String)
    (s : RenderWorker.MusicStreams) : Except String String := do
  validateMusicIsAudio s
  (RenderWorker.ffmpegMixMusic s).map (fun _ => RenderWorker.mixedName videoPath)

end ApiMusic

namespace RenderApiQueue

/-- Item-count ceiling MAX_ITEMS of pages/api/render.ts (enqueue variant),
default of RM_MAX_ITEMS. -/
def MAX_ITEMS : ℕ := 40

/-- Payload ceiling MAX_TOTAL, default of RM_MAX_TOTAL_BYTES. -/
def MAX_TOTAL : ℕ := 250000000

/-- One request item, represented by the length of the base64 payload of
its dataUrl when inline, none when it is a stored-file reference. -/
structure ReqItem where
  b64Len : Option ℕ
deriving DecidableEq

/-- Function approxBytesFromDataUrl on the base64 payload length: floor of
len * 0.75; since 0.75 is exact in binary floating point this is exactly
3 * len / 4 rounded down. -/
def approxBytes (b64Len : ℕ) : ℕ := 3 * b64Len / 4

/-- Estimated decoded size of one item: only inline dataUrl items count. -/
def itemBytes (it : ReqItem) : ℕ := it.b64Len.elim 0 approxBytes

/-- Total estimated payload of the request: items plus the music asset. -/
def totalApprox (items : List ReqItem) (music : Option ReqItem) : ℕ :=
  (items.map itemBytes).sum + music.elim 0 itemBytes

/-- Outcome of the enqueue handler: a typed rejection with its http status
and error code, or a RenderJob row created with status QUEUED. -/
inductive EnqueueOutcome where
  | reject (httpStatus : ℕ) (error : String)
  | jobQueued
deriving DecidableEq

/-- Validation and enqueue logic of handler, pages/api/render.ts (enqueue
variant) lines 635-668: the emptiness, item-count and payload-size checks
run in order and return before prisma.renderJob.create; only the final
branch creates the QUEUED job row. -/
def handler (items : List ReqItem) (music : Option ReqItem) : EnqueueOutcome :=
  if items.length = 0 then .reject 400 "no_items"
  else if MAX_ITEMS < items.length then .reject 413 "too_many_items"
  else if MAX_TOTAL < totalApprox items music then .reject 413 "payload_too_large"
  else .jobQueued

end RenderApiQueue

namespace RenderWorker

/-- Concrete row list for the pruning witness: 21 rows with distinct ids,
distinct file names, and strictly descending creation times. -/
def wRows : List RenderRow :=
  (List.range 21).map (fun i => ⟨i, "f" ++ toString i ++ ".mp4", 100 - i⟩)

/-- Specification bundle for fitDims on a positive source: both dimensions
even, both at most the canvas, the wide branch pins the width and the tall
branch the height, and the derived dimension stays within two pixels of
the exact aspect-preserving value (the slack the rounding and the forcing
to even can introduce). -/
def fitSpec (srcW srcH : ℚ) : Prop :=
  2 ∣ (fitDims srcW srcH).1 ∧ 2 ∣ (fitDims srcW srcH).2 ∧
  (fitDims srcW srcH).1 ≤ 1080 ∧ (fitDims srcW srcH).2 ≤ 1920 ∧
  (WIDTH / HEIGHT ≤ srcW / srcH →
    (fitDims srcW srcH).1 = 1080 ∧
    |(((fitDims srcW srcH).2 : ℤ) : ℚ) - 1080 * srcH / srcW| ≤ 2) ∧
  (srcW / srcH < WIDTH / HEIGHT →
    (fitDims srcW srcH).2 = 1920 ∧
    |(((fitDims srcW srcH).1 : ℤ) : ℚ) - 1920 * srcW / srcH| ≤ 2)

/-- Specification bundle for the amended duration-fit claim: the fitted
per-image duration is computed once for all stills, clamped into the band
from 1.2 to 4.0; it equals the remaining-budget quotient exactly whenever
that quotient lies inside the band; and the per-item loop admits every
item (one segment per item, no budget cutoff). -/
def perImageSpec (M v d : ℚ) (nv ns : ℕ) : Prop :=
  (6/5 ≤ perImage M v d nv ns ∧ perImage M v d nv ns ≤ 4) ∧
  (∀ q : ℚ, q = max 1 (M - (nv : ℚ) * (if 0 < v then v else 3)) →
    6/5 ≤ q / (ns : ℚ) → q / (ns : ℚ) ≤ 4 →
    perImage M v d nv ns = q / (ns : ℚ)) ∧
  (∀ n : ℕ, (tickSegs n).length = n)

end RenderWorker

namespace RenderApiQueue

/-- Concrete request of 41 reference items for the quota witness. -/
def w41 : List ReqItem := List.replicate 41 ⟨none⟩

end RenderApiQueue

namespace RenderWorker

/-- C9: for every duration, the motion-path frame count is
max(2, round(duration * fps)) at the fixed fps of 30; the zoom-in factor
is exactly 1.00 at the first frame and exactly 1.20 at the last frame, and
zoom-out is the exact reverse. -/
theorem motion_endpoints (d : ℚ) :
    frames d = max 2 (jround (d * 30)) ∧
    zin d 0 = 1.00 ∧ zin d (maxIdx d) = 1.20 ∧
    zout d 0 = 1.20 ∧ zout d (maxIdx d) = 1.00 := by
  have h2 : (2 : ℤ) ≤ frames d := le_max_left _ _
  have h1 : maxIdx d ≠ 0 := by unfold maxIdx; omega
  have hne : ((maxIdx d : ℤ) : ℚ) ≠ 0 := by exact_mod_cast h1
  refine ⟨rfl, ?_, ?_, ?_, ?_⟩
  · norm_num [zin]
  · rw [zin, div_self hne]; norm_num
  · norm_num [zout]
  · rw [zout, div_self hne]; norm_num

/-- C4 counterexample: the worker prober does throw — a failing ffprobe
subprocess (non-zero exit) propagates as an error out of ffprobeInfo,
since only the JSON parsing is guarded by a catch. -/
theorem ffprobeInfo_propagates_failure :
    ffprobeInfo (ProbeRun.exitNonZero "ffprobe exited with 1") =
      Except.error "ffprobe exited with 1" := rfl

/-- C4 (amended): the worker prober degrades only on output-parse failure,
returning width 1080, height 1920, rotation 0 with the duration absent
(not zero), while a failing probe subprocess propagates as an error; the
api-route probe additionally catches subprocess failure and returns the
canvas defaults, reporting no duration at all. -/
theorem prober_degradation (e : String) :
    ffprobeInfo (ProbeRun.exitNonZero e) = Except.error e ∧
    ffprobeInfo ProbeRun.badJson = Except.ok ⟨1080, 1920, 0, none⟩ ∧
    ffprobeInfo (ProbeRun.streams none) = Except.ok ⟨1080, 1920, 0, none⟩ ∧
    RenderApi.probe (ProbeRun.exitNonZero e) = ⟨1080, 1920, 0⟩ ∧
    RenderApi.probe ProbeRun.badJson = ⟨1080, 1920, 0⟩ :=
  ⟨rfl, rfl, rfl, rfl, rfl⟩

/-- C2 counterexample: publication is not atomic — for a concrete job
without music, the assembly trace writes the artifact directly at its
public path via the concat tool and contains no rename into it. -/
theorem publish_not_atomic :
    ¬ atomicPublication
        (assembleEvents "renders" "renders/tmp-j" "reel-1-abcdefgh.mp4" false)
        (publishedPath "renders" "reel-1-abcdefgh.mp4" false) := by
  unfold atomicPublication
  decide

/-- C2 (amended): the final artifact is written directly at its public
path inside the artifact root by the concat (or music-mix) tool
invocation, and the assembly phase performs no rename at all — there is no
temporary-name-then-rename publication step. -/
theorem publish_writes_public_directly (rendersDir tmpDir outName : String)
    (hasMusic : Bool) :
    FsEvent.toolWrite (publishedPath rendersDir outName hasMusic) ∈
      assembleEvents rendersDir tmpDir outName hasMusic ∧
    ∀ e ∈ assembleEvents rendersDir tmpDir outName hasMusic,
      ∀ s t, e ≠ FsEvent.rename s t := by
  constructor
  · cases hasMusic <;> simp [assembleEvents, publishedPath]
  · intro e he s t het
    subst het
    cases hasMusic <;> simp [assembleEvents] at he

/-- C6 counterexample: the worker never validates the music file — with a
music input that has both a video and an audio stream, the mix invocation
of replaceAudioWithMusic succeeds and the mixed artifact is produced,
instead of a MusicMustBeAudio rejection and a Failed job. -/
theorem worker_music_no_validation :
    replaceAudioWithMusic "out.mp4" ⟨true, true⟩ =
      Except.ok (mixedName "out.mp4") := rfl

/-- C6 (amended): the api variant rejects music carrying a video stream
(or lacking audio) with music_must_be_audio before mixing; the worker
variant performs no such check — whenever the music has an audio stream
the mix succeeds and produces the artifact, and when it has none the
failure is the generic tool error, never MusicMustBeAudio. -/
theorem music_validation_contrast (s : MusicStreams) :
    (s.hasVideo = true →
      ApiMusic.replaceAudioWithMusicChecked "out.mp4" s =
        Except.error "music_must_be_audio") ∧
    (s.hasAudio = true →
      replaceAudioWithMusic "out.mp4" s = Except.ok (mixedName "out.mp4")) ∧
    (s.hasAudio = false →
      replaceAudioWithMusic "out.mp4" s =
        Except.error "ffmpeg exited with 1") := by
  obtain ⟨v, a⟩ := s
  cases v <;> cases a <;>
    exact ⟨fun h => by first | rfl | simp at h,
           fun h => by first | rfl | simp at h,
           fun h => by first | rfl | simp at h⟩

/-- Witness for C6 amended: concrete application at a video-plus-audio
music file, discharging the hypothesis. -/
theorem music_validation_contrast_witness :
    ApiMusic.replaceAudioWithMusicChecked "out.mp4" ⟨true, true⟩ =
      Except.error "music_must_be_audio" :=
  (music_validation_contrast ⟨true, true⟩).1 rfl

/-- C10: when the options request keepVideoAudio and also carry a
background-music asset whose dataUrl decodes, the worker deterministically
lets the music win: the effective keepVideoAudio is false, every video
segment gets the silent bed, and the final audio track is the looped,
trimmed music. -/
theorem music_wins_policy (keepOpt : Bool) (m : MusicOpt)
    (hk : keepOpt = true) (hd : m.dataUrl.isSome = true) :
    tickAudioPlan keepOpt (some m) true =
      ⟨false, SegAudioKind.silentBed, FinalAudioKind.loopedTrimmedMusic⟩ := by
  subst hk
  simp [tickAudioPlan, Option.elim, hd]

/-- Witness for C10 at a concrete option bag. -/
theorem music_wins_policy_witness :
    (true : Bool) = true ∧
    (MusicOpt.mk (some "song") (some "data")).dataUrl.isSome = true ∧
    tickAudioPlan true (some ⟨some "song", some "data"⟩) true =
      ⟨false, SegAudioKind.silentBed, FinalAudioKind.loopedTrimmedMusic⟩ :=
  ⟨rfl, rfl, music_wins_policy true ⟨some "song", some "data"⟩ rfl rfl⟩

/-- C3 counterexample: with music of 2.1 seconds (matchMusicDuration
applies above 2 s), no videos and ten stills, the fitted per-image
duration is the 1.2 floor and the total picture duration is 12 seconds —
exceeding the music length by far more than one frame (1/30 s). -/
theorem perImage_floor_overshoots :
    perImage (21/10) 0 (5/2) 0 10 = 6/5 ∧
    (21/10 : ℚ) + 1/30 <
      totalItemDuration 10 (perImage (21/10) 0 (5/2) 0 10) [] := by
  have h : perImage (21/10) 0 (5/2) 0 10 = 6/5 := by
    simp only [perImage]
    norm_num [max_def, min_def]
  refine ⟨h, ?_⟩
  rw [totalItemDuration, h]
  norm_num

/-- C3 (amended): the duration fit is one clamped formula applied in a
single pass, per perImageSpec. -/
theorem perImage_clamped_single_pass (M v d : ℚ) (nv ns : ℕ)
    (hns : 0 < ns) : perImageSpec M v d nv ns := by
  have hne : perImage M v d nv ns =
      max 1.2 (min 4.0
        ((max 1 (M - (nv : ℚ) * (if 0 < v then v else 3))) / (ns : ℚ))) := by
    simp [perImage, hns]
  have h65 : (1.2 : ℚ) = 6/5 := by norm_num
  have h4 : (4.0 : ℚ) = 4 := by norm_num
  refine ⟨⟨?_, ?_⟩, ?_, ?_⟩
  · rw [hne, h65]; exact le_max_left _ _
  · rw [hne]
    exact max_le (by norm_num) (le_trans (min_le_left _ _) (by norm_num))
  · intro q hq hlo hhi
    rw [hne, ← hq, h65, h4, min_eq_right hhi, max_eq_right hlo]
  · intro n
    simp [tickSegs]

/-- Witness for C3 amended at a concrete in-band configuration. -/
theorem perImage_clamped_single_pass_witness :
    0 < 4 ∧ perImageSpec 10 0 (5/2) 1 4 :=
  ⟨by norm_num, perImage_clamped_single_pass 10 0 (5/2) 1 4 (by norm_num)⟩

end RenderWorker

namespace RenderApiQueue

/-- C7: a request whose item count exceeds MAX_ITEMS, or whose estimated
payload exceeds MAX_TOTAL, is rejected with the typed user-facing error
before the job-creation step — the outcome is a reject and never a queued
RenderJob row. -/
theorem quota_guard_rejects (items : List ReqItem) (music : Option ReqItem)
    (h : MAX_ITEMS < items.length ∨
      (0 < items.length ∧ items.length ≤ MAX_ITEMS ∧
       MAX_TOTAL < totalApprox items music)) :
    (handler items music = EnqueueOutcome.reject 413 "too_many_items" ∨
     handler items music = EnqueueOutcome.reject 413 "payload_too_large") ∧
    handler items music ≠ EnqueueOutcome.jobQueued := by
  rcases h with h | ⟨h0, h1, h2⟩
  · have hz : ¬ items.length = 0 := by omega
    rw [handler, if_neg hz, if_pos h]
    exact ⟨Or.inl rfl, by simp⟩
  · have hz : ¬ items.length = 0 := by omega
    have hgt : ¬ MAX_ITEMS < items.length := by omega
    rw [handler, if_neg hz, if_neg hgt, if_pos h2]
    exact ⟨Or.inr rfl, by simp⟩

/-- Witness for C7: 41 items against the ceiling of 40. -/
theorem quota_guard_rejects_witness :
    (MAX_ITEMS < w41.length ∨
      (0 < w41.length ∧ w41.length ≤ MAX_ITEMS ∧
       MAX_TOTAL < totalApprox w41 none)) ∧
    ((handler w41 none = EnqueueOutcome.reject 413 "too_many_items" ∨
      handler w41 none = EnqueueOutcome.reject 413 "payload_too_large") ∧
     handler w41 none ≠ EnqueueOutcome.jobQueued) :=
  ⟨Or.inl (by decide), quota_guard_rejects w41 none (Or.inl (by decide))⟩

end RenderApiQueue

namespace RenderWorker

/-- After the conditional update, no row of the new table still matches
the claim predicate: the matching row was moved to RUNNING. -/
theorem pQ_false_after_claim (db : List Job) (jid : ℕ) :
    ∀ j ∈ (claimQueued db jid).2, pQ jid j = false := by
  intro j hj
  simp only [claimQueued, List.mem_map] at hj
  obtain ⟨j0, _, rfl⟩ := hj
  by_cases h : pQ jid j0
  · simp only [h, if_true]
    simp [pQ]
  · simp [h]

/-- A table with no matching row is unchanged by the conditional update
map. -/
theorem map_claim_id (jid : ℕ) :
    ∀ db : List Job, (∀ j ∈ db, pQ jid j = false) →
      db.map (fun j => if pQ jid j then (⟨j.id, JobStatus.running⟩ : Job) else j)
        = db := by
  intro db
  induction db with
  | nil => intro _; rfl
  | cons a l ih =>
    intro h
    have ha : pQ jid a = false := h a (List.mem_cons_self _ _)
    simp [ha, ih (fun j hj => h j (List.mem_cons_of_mem _ hj))]

/-- On a table with no matching row, the conditional update affects zero
rows and leaves the table unchanged. -/
theorem claimQueued_noop (db : List Job) (jid : ℕ)
    (h : ∀ j ∈ db, pQ jid j = false) : claimQueued db jid = (0, db) := by
  unfold claimQueued
  rw [List.filter_eq_nil_iff.mpr (fun j hj => by simp [h j hj]),
    map_claim_id jid db h]
  rfl

/-- Any number of claim attempts on a table with no matching row all fail
and change nothing. -/
theorem claimAttempts_noop (jid : ℕ) :
    ∀ (n : ℕ) (db : List Job), (∀ j ∈ db, pQ jid j = false) →
      claimAttempts db jid n = (db, 0) := by
  intro n
  induction n with
  | zero => intro db _; rfl
  | succ m ih =>
    intro db h
    have hc : claimQueued db jid = (0, db) := claimQueued_noop db jid h
    simp [claimAttempts, tickClaim, hc, ih db h]

/-- With unique row ids and the target row present and QUEUED, the claim
predicate matches exactly one row. -/
theorem filter_pQ_len_one (jid : ℕ) :
    ∀ db : List Job, (db.map Job.id).Nodup →
      (⟨jid, JobStatus.queued⟩ : Job) ∈ db →
      (db.filter (pQ jid)).length = 1 := by
  intro db
  induction db with
  | nil => intro _ h; cases h
  | cons a l ih =>
    intro hnd hmem
    rw [List.map_cons, List.nodup_cons] at hnd
    obtain ⟨hnd1, hnd2⟩ := hnd
    rcases List.mem_cons.mp hmem with heq | hmem2
    · have hpa : pQ jid a = true := by rw [← heq]; simp [pQ]
      have hnil : l.filter (pQ jid) = [] := by
        apply List.filter_eq_nil_iff.mpr
        intro j hj hpj
        have hjid : j.id = jid := by
          have := hpj
          simp only [pQ, Bool.and_eq_true, beq_iff_eq] at this
          exact this.1
        apply hnd1
        apply List.mem_map.mpr
        refine ⟨j, hj, ?_⟩
        rw [hjid, ← heq]
      rw [List.filter_cons, if_pos hpa, hnil]
      rfl
    · have haid : a.id ≠ jid := by
        intro hh
        apply hnd1
        apply List.mem_map.mpr
        exact ⟨⟨jid, JobStatus.queued⟩, hmem2, by simp [hh]⟩
      have hpa : ¬ (pQ jid a = true) := by simp [pQ, haid]
      rw [List.filter_cons, if_neg hpa]
      exact ih hnd2 hmem2

/-- C1: with unique job ids and the target job present in status QUEUED,
any positive number of serialized claim attempts on it (the persistence
layer serializes the concurrent atomic conditional updates) yields exactly
one success, and the final table equals the table right after the single
winning update — every losing attempt changes nothing and performs no
further work on the job. -/
theorem claim_exclusivity (db : List Job) (jid : ℕ) (n : ℕ)
    (hnd : (db.map Job.id).Nodup)
    (hmem : (⟨jid, JobStatus.queued⟩ : Job) ∈ db)
    (hn : 1 ≤ n) :
    (claimAttempts db jid n).2 = 1 ∧
    (claimAttempts db jid n).1 = (claimQueued db jid).2 := by
  obtain ⟨m, rfl⟩ : ∃ m, n = m + 1 := ⟨n - 1, by omega⟩
  have hcount : (db.filter (pQ jid)).length = 1 := filter_pQ_len_one jid db hnd hmem
  have hflag : ((claimQueued db jid).1 != 0) = true := by
    simp only [claimQueued]
    rw [hcount]
    rfl
  have hrest := claimAttempts_noop jid m (claimQueued db jid).2
    (pQ_false_after_claim db jid)
  simp [claimAttempts, tickClaim, hflag, hrest]

/-- Witness for C1: two serialized attempts on a two-row table whose first
job is QUEUED. -/
theorem claim_exclusivity_witness :
    (([⟨1, JobStatus.queued⟩, ⟨2, JobStatus.done⟩] : List Job).map Job.id).Nodup ∧
    (⟨1, JobStatus.queued⟩ : Job) ∈
      ([⟨1, JobStatus.queued⟩, ⟨2, JobStatus.done⟩] : List Job) ∧
    1 ≤ 2 ∧
    ((claimAttempts [⟨1, JobStatus.queued⟩, ⟨2, JobStatus.done⟩] 1 2).2 = 1 ∧
     (claimAttempts [⟨1, JobStatus.queued⟩, ⟨2, JobStatus.done⟩] 1 2).1 =
       (claimQueued [⟨1, JobStatus.queued⟩, ⟨2, JobStatus.done⟩] 1).2) :=
  ⟨by decide, by decide, by decide,
   claim_exclusivity [⟨1, JobStatus.queued⟩, ⟨2, JobStatus.done⟩] 1 2
     (by decide) (by decide) (by decide)⟩

end RenderWorker

namespace RenderWorker

/-- C8 counterexample: the code swallows unlink failures (render-worker.ts
line 489 try/catch) and deleteMany then removes the metadata row
regardless, so file and metadata do not go together: when the unlink of
the oldest artifact fails, its row is gone from the table while its file
is still present in the store. -/
theorem prune_metadata_without_file :
    (⟨20, "f20.mp4", 80⟩ : RenderRow) ∈ wRows.drop KEEP ∧
    (⟨20, "f20.mp4", 80⟩ : RenderRow) ∉
      (pruneOldRendersForUser wRows ["f20.mp4"] (fun f => f == "f20.mp4")).1 ∧
    "f20.mp4" ∈
      (pruneOldRendersForUser wRows ["f20.mp4"] (fun f => f == "f20.mp4")).2 := by
  decide

/-- C8 (amended): pruning one owner whose rows arrive newest-first
(strictly), with unique ids and unique file names and more than KEEP = 20
rows, selects exactly the rows past the cap — each strictly older than
every kept row — and always deletes their metadata rows; each selected
file is removed when its unlink succeeds but survives orphaned when the
unlink fails (the exception is swallowed); the kept artifacts stay intact;
and a second pruning pass changes nothing. -/
theorem prune_best_effort_spec (rowsDesc : List RenderRow) (files : List String)
    (unlinkFails : String → Bool)
    (hsort : rowsDesc.Pairwise (fun a b => b.createdAt < a.createdAt))
    (hid : (rowsDesc.map RenderRow.id).Nodup)
    (hfn : (rowsDesc.map RenderRow.fileName).Nodup)
    (hlen : KEEP < rowsDesc.length) :
    pruneSpec rowsDesc files unlinkFails := by
  have hAB : rowsDesc.take KEEP ++ rowsDesc.drop KEEP = rowsDesc :=
    List.take_append_drop _ _
  have hres1 : (pruneOldRendersForUser rowsDesc files unlinkFails).1 =
      rowsDesc.filter
        (fun r => !((rowsDesc.drop KEEP).any (fun d => d.id == r.id))) := rfl
  have hres2 : (pruneOldRendersForUser rowsDesc files unlinkFails).2 =
      files.filter
        (fun f => !((rowsDesc.drop KEEP).any (fun d => d.fileName == f)) ||
          unlinkFails f) := rfl
  have hidDisj : ∀ a ∈ rowsDesc.take KEEP, ∀ b ∈ rowsDesc.drop KEEP,
      a.id ≠ b.id := by
    intro a ha b hb hab
    rw [← hAB, List.map_append] at hid
    rcases List.nodup_append.mp hid with ⟨-, -, hdisj⟩
    exact hdisj (List.mem_map.mpr ⟨a, ha, rfl⟩) (List.mem_map.mpr ⟨b, hb, hab.symm⟩)
  have hfnDisj : ∀ a ∈ rowsDesc.take KEEP, ∀ b ∈ rowsDesc.drop KEEP,
      a.fileName ≠ b.fileName := by
    intro a ha b hb hab
    rw [← hAB, List.map_append] at hfn
    rcases List.nodup_append.mp hfn with ⟨-, -, hdisj⟩
    exact hdisj (List.mem_map.mpr ⟨a, ha, rfl⟩) (List.mem_map.mpr ⟨b, hb, hab.symm⟩)
  have hsortTD : ∀ a ∈ rowsDesc.take KEEP, ∀ b ∈ rowsDesc.drop KEEP,
      b.createdAt < a.createdAt := by
    intro a ha b hb
    rw [← hAB] at hsort
    exact (List.pairwise_append.mp hsort).2.2 a ha b hb
  have hkeep : (pruneOldRendersForUser rowsDesc files unlinkFails).1 =
      rowsDesc.take KEEP := by
    rw [hres1]
    nth_rewrite 2 [← hAB]
    rw [List.filter_append]
    have h1 : (rowsDesc.take KEEP).filter
        (fun r => !((rowsDesc.drop KEEP).any (fun d => d.id == r.id))) =
        rowsDesc.take KEEP := by
      apply List.filter_eq_self.mpr
      intro a ha
      have hany : (rowsDesc.drop KEEP).any (fun d => d.id == a.id) = false := by
        rw [List.any_eq_false]
        intro d hd hda
        rw [beq_iff_eq] at hda
        exact hidDisj a ha d hd hda.symm
      rw [hany]
      rfl
    have h2 : (rowsDesc.drop KEEP).filter
        (fun r => !((rowsDesc.drop KEEP).any (fun d => d.id == r.id))) = [] := by
      apply List.filter_eq_nil_iff.mpr
      intro b hb hcontra
      have hany : (rowsDesc.drop KEEP).any (fun d => d.id == b.id) = true :=
        List.any_eq_true.mpr ⟨b, hb, by simp⟩
      rw [hany] at hcontra
      simp at hcontra
    rw [h1, h2, List.append_nil]
  have hfiles_del : ∀ d ∈ rowsDesc.drop KEEP, unlinkFails d.fileName = false →
      d.fileName ∉ (pruneOldRendersForUser rowsDesc files unlinkFails).2 := by
    intro d hd hfail hmem
    rw [hres2] at hmem
    have hmem' := (List.mem_filter.mp hmem).2
    have hany : (rowsDesc.drop KEEP).any (fun dd => dd.fileName == d.fileName) = true :=
      List.any_eq_true.mpr ⟨d, hd, by simp⟩
    rw [hany, hfail] at hmem'
    simp at hmem'
  have hfiles_orphan : ∀ d ∈ rowsDesc.drop KEEP, unlinkFails d.fileName = true →
      d.fileName ∈ files →
      d.fileName ∈ (pruneOldRendersForUser rowsDesc files unlinkFails).2 := by
    intro d hd hfail hf
    rw [hres2]
    apply List.mem_filter.mpr
    refine ⟨hf, ?_⟩
    rw [hfail]
    simp
  have hlen2 : (rowsDesc.take KEEP).length ≤ KEEP := by
    rw [List.length_take]
    omega
  have hdrop2 : (rowsDesc.take KEEP).drop KEEP = [] :=
    List.drop_eq_nil_of_le hlen2
  have hres1b : (pruneOldRendersForUser (rowsDesc.take KEEP)
      (pruneOldRendersForUser rowsDesc files unlinkFails).2 unlinkFails).1 =
      (rowsDesc.take KEEP).filter
        (fun r => !(((rowsDesc.take KEEP).drop KEEP).any (fun d => d.id == r.id))) := rfl
  have hres2b : (pruneOldRendersForUser (rowsDesc.take KEEP)
      (pruneOldRendersForUser rowsDesc files unlinkFails).2 unlinkFails).2 =
      (pruneOldRendersForUser rowsDesc files unlinkFails).2.filter
        (fun f => !(((rowsDesc.take KEEP).drop KEEP).any (fun d => d.fileName == f)) ||
          unlinkFails f) := rfl
  have hidem : pruneOldRendersForUser
      (pruneOldRendersForUser rowsDesc files unlinkFails).1
      (pruneOldRendersForUser rowsDesc files unlinkFails).2 unlinkFails =
      pruneOldRendersForUser rowsDesc files unlinkFails := by
    have e1 : List.filter
        (fun r => !(([] : List RenderRow).any fun d => d.id == r.id))
        (rowsDesc.take KEEP) = rowsDesc.take KEEP :=
      List.filter_eq_self.mpr (fun a _ => rfl)
    have e2 : List.filter
        (fun f => !(([] : List RenderRow).any fun d => d.fileName == f) || unlinkFails f)
        (pruneOldRendersForUser rowsDesc files unlinkFails).2 =
        (pruneOldRendersForUser rowsDesc files unlinkFails).2 :=
      List.filter_eq_self.mpr (fun a _ => rfl)
    rw [hkeep, Prod.ext_iff]
    constructor
    · rw [hres1b, hdrop2, e1]
      exact hkeep.symm
    · rw [hres2b, hdrop2]
      exact e2
  refine ⟨List.length_drop _ _, hkeep, hsortTD, ?_, ?_, hidem⟩
  · intro d hd
    refine ⟨?_, hfiles_del d hd, hfiles_orphan d hd⟩
    intro r hr
    rw [hkeep] at hr
    exact hidDisj r hr d hd
  · intro k hk hkf
    rw [hres2]
    apply List.mem_filter.mpr
    refine ⟨hkf, ?_⟩
    have hany : (rowsDesc.drop KEEP).any (fun d => d.fileName == k.fileName) = false := by
      rw [List.any_eq_false]
      intro d hd hdk
      rw [beq_iff_eq] at hdk
      exact hfnDisj k hk d hd hdk.symm
    rw [hany]
    simp

/-- Witness for C8 amended: twenty-one rows, strictly descending, with the
unlink of the oldest file failing. -/
theorem prune_best_effort_spec_witness :
    wRows.Pairwise (fun a b => b.createdAt < a.createdAt) ∧
    (wRows.map RenderRow.id).Nodup ∧
    (wRows.map RenderRow.fileName).Nodup ∧
    KEEP < wRows.length ∧
    pruneSpec wRows ["f20.mp4"] (fun f => f == "f20.mp4") :=
  ⟨by decide, by decide, by decide, by decide,
   prune_best_effort_spec wRows ["f20.mp4"] (fun f => f == "f20.mp4")
     (by decide) (by decide) (by decide) (by decide)⟩

end RenderWorker

namespace RenderWorker

/-- Bounds for the JS rounding: jround x lies within one half of x. -/
theorem jround_bounds (x : ℚ) :
    x - 1/2 < ((jround x : ℤ) : ℚ) ∧ ((jround x : ℤ) : ℚ) ≤ x + 1/2 := by
  unfold jround
  constructor
  · have h := Int.lt_floor_add_one (x + 1/2)
    push_cast at h ⊢
    linarith
  · exact_mod_cast Int.floor_le (x + 1/2)

/-- The rounding is nonnegative on positive input. -/
theorem jround_nonneg (x : ℚ) (hx : 0 < x) : 0 ≤ jround x := by
  unfold jround
  rw [Int.floor_nonneg]
  linarith

/-- Forcing even always lands on an even value. -/
theorem even_dvd_two (m : ℤ) : 2 ∣ even m := by
  unfold even
  omega

/-- Forcing even moves a nonnegative integer of at least 2 down by at most
one. -/
theorem even_sandwich (m : ℤ) (hm : 0 ≤ m) (h2 : 2 ≤ m) :
    m - 1 ≤ even m ∧ even m ≤ m := by
  have hid := Int.fmod_add_fdiv m 2
  have hlo : 0 ≤ m.fmod 2 := Int.fmod_nonneg hm (by norm_num)
  have hhi : m.fmod 2 < 2 := Int.fmod_lt_of_pos m (by norm_num)
  unfold even
  constructor
  · rw [max_eq_right (by omega)]
    omega
  · exact max_le (by omega) (by omega)

/-- The even-forced rounding of a positive rational stays within 2 of
it. -/
theorem even_jround_close (x : ℚ) (hx : 0 < x) :
    |((even (jround x) : ℤ) : ℚ) - x| ≤ 2 := by
  obtain ⟨hb1, hb2⟩ := jround_bounds x
  have h0 : 0 ≤ jround x := jround_nonneg x hx
  by_cases h2 : 2 ≤ jround x
  · obtain ⟨hs1, hs2⟩ := even_sandwich (jround x) h0 h2
    have c1 : ((even (jround x) : ℤ) : ℚ) ≤ ((jround x : ℤ) : ℚ) := by
      exact_mod_cast hs2
    have c2 : ((jround x : ℤ) : ℚ) - 1 ≤ ((even (jround x) : ℤ) : ℚ) := by
      have h : ((jround x - 1 : ℤ) : ℚ) ≤ ((even (jround x) : ℤ) : ℚ) :=
        Int.cast_le.mpr hs1
      push_cast at h
      linarith
    rw [abs_le]
    constructor <;> linarith
  · have heven : even (jround x) = 2 := by
      have hm01 : jround x = 0 ∨ jround x = 1 := by omega
      rcases hm01 with h | h <;> rw [h] <;> decide
    have hxlt : x < 3/2 := by
      have h : ((jround x : ℤ) : ℚ) ≤ 1 := by
        exact_mod_cast (by omega : jround x ≤ 1)
      linarith
    rw [heven, abs_le]
    constructor <;> push_cast <;> linarith

/-- The even-forced rounding of a positive x stays at or below an even cap
that x itself respects. -/
theorem even_jround_le (x : ℚ) (C : ℤ) (hx0 : 0 < x) (hx : x ≤ (C : ℚ))
    (hC : 2 ≤ C) : even (jround x) ≤ C := by
  have hm : jround x ≤ C := by
    unfold jround
    have h1 : ⌊x + 1/2⌋ ≤ ⌊(C : ℚ) + 1/2⌋ := Int.floor_le_floor (by linarith)
    have h2 : ⌊(C : ℚ) + 1/2⌋ = C := by
      rw [Int.floor_int_add]
      norm_num
    omega
  have h0 : 0 ≤ jround x := jround_nonneg x hx0
  by_cases h2 : 2 ≤ jround x
  · exact le_trans (even_sandwich (jround x) h0 h2).2 hm
  · have heven : even (jround x) = 2 := by
      have hm01 : jround x = 0 ∨ jround x = 1 := by omega
      rcases hm01 with h | h <;> rw [h] <;> decide
    omega

/-- C5: geometry invariant of fitDims — both dimensions even and inside
the 1080 x 1920 canvas; the wide branch pins the width and the tall branch
the height, with the derived dimension within the rounding tolerance (two
pixels) of the exact aspect-preserving value. -/
theorem fitDims_geometry (srcW srcH : ℚ) (hw : 0 < srcW) (hh : 0 < srcH) :
    fitSpec srcW srcH := by
  have har : 0 < srcW / srcH := div_pos hw hh
  have harOut : WIDTH / HEIGHT = (9 : ℚ) / 16 := by rw [WIDTH, HEIGHT]; norm_num
  have hfitEq : fitDims srcW srcH =
      if WIDTH / HEIGHT ≤ srcW / srcH then
        (1080, even (jround (WIDTH / (srcW / srcH))))
      else (even (jround (HEIGHT * (srcW / srcH))), 1920) := rfl
  by_cases hcond : WIDTH / HEIGHT ≤ srcW / srcH
  · have hfit : fitDims srcW srcH =
        (1080, even (jround (WIDTH / (srcW / srcH)))) := by
      rw [hfitEq, if_pos hcond]
    have hxval : WIDTH / (srcW / srcH) = 1080 * srcH / srcW := by
      rw [WIDTH]
      field_simp
    have hxpos : 0 < WIDTH / (srcW / srcH) := by
      rw [WIDTH]; positivity
    have hxle : WIDTH / (srcW / srcH) ≤ ((1920 : ℤ) : ℚ) := by
      rw [harOut] at hcond
      rw [WIDTH, div_le_iff₀ har]
      push_cast
      linarith
    unfold fitSpec
    rw [hfit]
    refine ⟨by norm_num, even_dvd_two _, by norm_num, ?_, ?_, ?_⟩
    · exact even_jround_le _ 1920 hxpos hxle (by norm_num)
    · intro _
      refine ⟨rfl, ?_⟩
      rw [← hxval]
      exact even_jround_close _ hxpos
    · intro hcon
      exact absurd hcond (not_le.mpr hcon)
  · have hcond' : srcW / srcH < WIDTH / HEIGHT := not_le.mp hcond
    have hfit : fitDims srcW srcH =
        (even (jround (HEIGHT * (srcW / srcH))), 1920) := by
      rw [hfitEq, if_neg hcond]
    have hxval : HEIGHT * (srcW / srcH) = 1920 * srcW / srcH := by
      rw [HEIGHT]; ring
    have hxpos : 0 < HEIGHT * (srcW / srcH) := by
      rw [HEIGHT]; positivity
    have hxle : HEIGHT * (srcW / srcH) ≤ ((1080 : ℤ) : ℚ) := by
      rw [harOut] at hcond'
      rw [HEIGHT]
      push_cast
      linarith
    unfold fitSpec
    rw [hfit]
    refine ⟨even_dvd_two _, by norm_num, ?_, by norm_num, ?_, ?_⟩
    · exact even_jround_le _ 1080 hxpos hxle (by norm_num)
    · intro hcon
      exact absurd hcon (not_le.mpr hcond')
    · intro _
      refine ⟨rfl, ?_⟩
      rw [← hxval]
      exact even_jround_close _ hxpos

/-- Witness for C5 at a 2000 x 3000 source (the portrait photo of the
end-to-end scenario). -/
theorem fitDims_geometry_witness :
    (0 : ℚ) < 2000 ∧ (0 : ℚ) < 3000 ∧ fitSpec 2000 3000 :=
  ⟨by norm_num, by norm_num,
   fitDims_geometry 2000 3000 (by norm_num) (by norm_num)⟩

end RenderWorker
